import Mathlib

/-!
Verification of the quadcopter autopilot core in `src/pilot.c`.

The C module is embedded shallowly: the AVR target has 16-bit `int`, so
`int16_t` arithmetic is modelled on `Int` with an explicit reduction
`wrap16` into `[-32768, 32768)` at every point where the C program stores
into (or wraps inside) a 16-bit signed quantity; `uint8_t` storage is
modelled with `% 256`, and the `uint32_t` accumulator with `% 2^32`.
Arithmetic right shift on a negative two's-complement value (the AVR gcc
behaviour) is floor division by a power of two, which is `Int` division
in Lean.  Interrupt-driven collaborators (ADC, receiver, compass bus,
AHRS) are modelled as input parameters: each read the C code performs
becomes a component of an input structure.
-/

namespace Pilot

/-- Reduction of an integer into the 16-bit two's-complement window
`[-32768, 32768)`, modelling storage into an `int16_t` (and AVR 16-bit
`int` overflow wrap-around). -/
def wrap16 (z : Int) : Int := (z + 32768) % 65536 - 32768

/-- Arithmetic shift right by `n` bits: floor division by `2 ^ n`,
matching the AVR gcc behaviour of `>>` on signed operands. -/
def asr (x : Int) (n : Nat) : Int := x / (2 ^ n)

/-- The C `CLAMP(x, mi, ma)` macro of pilot.c lines 282-286: two
sequential conditional assignments. -/
def cCLAMP (x mi ma : Int) : Int :=
  let x1 := if x < mi then mi else x
  if x1 > ma then ma else x1

/-- Big-endian combination `((uint16_t) hi << 8) | lo` of two bytes. -/
def u16 (hi lo : Nat) : Nat := (hi % 256) * 256 + lo % 256

/-- Modelled from the spec: the integer square-root utility (`isqrt32`
from isqrt.h) is an external collaborator whose source is not part of
the core; the spec describes it as an integer square root, which is
`Nat.sqrt`. -/
def isqrt32 (n : Nat) : Nat := Nat.sqrt n

/-! ## Safety-gate checks (`setup`, pilot.c lines 73-196) -/

/-- The in-band test for one gyro axis reading, pilot.c lines 130-132:
`adc_values[i] > 0x2a0 && adc_values[i] < 0x350`. -/
def inBand (x : Nat) : Bool := decide (0x2a0 < x) && decide (x < 0x350)

/-- All three gyro axis readings of one poll are inside the band. -/
def gyroBand (r : Nat × Nat × Nat) : Bool := inBand r.1 && inBand r.2.1 && inBand r.2.2

/-- The gyro zero-rate polling loop of pilot.c lines 129-137.  `r` is the
current triple `adc_values[0..2]`, `cnt` the C counter; `f i` gives the
triple produced by the `i`-th re-read of the three channels.  The loop
condition is `band && cnt++ < 20` with short-circuit evaluation: `cnt`
is incremented only when the band test succeeds.  The `fuel` argument is
`21 - cnt`, present only to make the recursion structural; it is never
exhausted while `fuel + cnt = 21`. -/
def gyroLoop (f : Nat → Nat × Nat × Nat) : Nat → Nat × Nat × Nat → Nat → Nat
  | 0, _, cnt => cnt
  | fuel + 1, r, cnt =>
    if gyroBand r then
      if cnt < 20 then gyroLoop f fuel (f cnt) (cnt + 1) else cnt + 1
    else cnt

/-- The gyro check passes when the C code does not `die()`, i.e. when
`cnt < 21` is false after the loop (pilot.c line 138). -/
def gyroCheckPasses (r0 : Nat × Nat × Nat) (f : Nat → Nat × Nat × Nat) : Bool :=
  decide (21 ≤ gyroLoop f 21 r0 0)

/-- One magnetometer axis offset, pilot.c lines 145-149: the big-endian
16-bit register pair minus the stored calibration value, evaluated in
16-bit arithmetic and stored into `int16_t v`. -/
def magAxisOffset (hi lo : Nat) (calib : Int) : Int :=
  wrap16 ((u16 hi lo : Int) - calib)

/-- The magnetic-field magnitude check of pilot.c lines 143-156.
`regs` are the six bytes read from compass registers 10..15, `calib`
the three stored calibration offsets.  Returns the computed magnitude
`len` and whether the check passes (the code halts when
`len > 600 || len < 300`). -/
def magCheck (regs : Nat × Nat × Nat × Nat × Nat × Nat) (calib : Int × Int × Int) :
    Nat × Bool :=
  let v0 := magAxisOffset regs.1 regs.2.1 calib.1
  let v1 := magAxisOffset regs.2.2.1 regs.2.2.2.1 calib.2.1
  let v2 := magAxisOffset regs.2.2.2.2.1 regs.2.2.2.2.2 calib.2.2
  let len : Nat := (v0 * v0 + v1 * v1 + v2 * v2).toNat % 4294967296
  let m := isqrt32 len
  (m, !(decide (m > 600) || decide (m < 300)))

/-- Definition following the words of the specification, for comparison
with `magCheck`: the magnitude computed as a 2-D Euclidean norm over the
offset values (the first two offsets), via integer square root, with the
same 300..600 pass band. -/
def magCheckClaimed (regs : Nat × Nat × Nat × Nat × Nat × Nat) (calib : Int × Int × Int) :
    Nat × Bool :=
  let v0 := magAxisOffset regs.1 regs.2.1 calib.1
  let v1 := magAxisOffset regs.2.2.1 regs.2.2.2.1 calib.2.1
  let m := isqrt32 ((v0 * v0 + v1 * v1).toNat)
  (m, !(decide (m > 600) || decide (m < 300)))

/-- One halved accelerometer sample, pilot.c lines 162-166:
`((int16_t) raw + 1) >> 1` in 16-bit arithmetic (the raw big-endian
register value reinterpreted as signed, incremented, arithmetically
shifted right by one). -/
def accelHalf (raw : Nat) : Int := asr (wrap16 (wrap16 (raw : Int) + 1)) 1

/-- One iteration of the accelerometer sampling loop body, pilot.c lines
161-167: three halved samples are squared and each square is added into
the running `uint32_t len` accumulator (each addition wraps mod 2^32). -/
def accelStep (acc : Nat) (r : Nat × Nat × Nat × Nat × Nat × Nat) : Nat :=
  let v0 := accelHalf (u16 r.1 r.2.1)
  let v1 := accelHalf (u16 r.2.2.1 r.2.2.2.1)
  let v2 := accelHalf (u16 r.2.2.2.2.1 r.2.2.2.2.2)
  let acc := (acc + (v0 * v0).toNat) % 4294967296
  let acc := (acc + (v1 * v1).toNat) % 4294967296
  (acc + (v2 * v2).toNat) % 4294967296

/-- The total square contribution of one accelerometer read: the sum of
the squares of its three halved samples (used to state the closed form
of the accumulation loop). -/
def accelSq3 (r : Nat × Nat × Nat × Nat × Nat × Nat) : Nat :=
  (accelHalf (u16 r.1 r.2.1) * accelHalf (u16 r.1 r.2.1)).toNat +
    (accelHalf (u16 r.2.2.1 r.2.2.2.1) * accelHalf (u16 r.2.2.1 r.2.2.2.1)).toNat +
    (accelHalf (u16 r.2.2.2.2.1 r.2.2.2.2.2) * accelHalf (u16 r.2.2.2.2.1 r.2.2.2.2.2)).toNat

/-- The accelerometer rest-magnitude check of pilot.c lines 158-176.
`len0` is the value already held by `len` when the loop starts (the
magnitude left over from the magnetic-field check: `len` is not reset);
`reads i` gives the six bytes of the `i`-th register read.  Sixteen
samples are accumulated, then `len = (isqrt32(len) + 1) >> 1`, and the
code halts when `len > 0x4070 || len < 0x3f00`. -/
def accelCheck (len0 : Nat) (reads : Nat → Nat × Nat × Nat × Nat × Nat × Nat) :
    Nat × Bool :=
  let total := (List.range 16).foldl (fun acc i => accelStep acc (reads i)) len0
  let m := (isqrt32 total + 1) / 2
  (m, !(decide (m > 0x4070) || decide (m < 0x3f00)))

/-- Sum of the squares of the three signed (un-halved) samples of one
read, as the words of the specification describe them. -/
def accelSq3Claimed (r : Nat × Nat × Nat × Nat × Nat × Nat) : Nat :=
  (wrap16 (u16 r.1 r.2.1 : Int) * wrap16 (u16 r.1 r.2.1 : Int)).toNat +
    (wrap16 (u16 r.2.2.1 r.2.2.2.1 : Int) * wrap16 (u16 r.2.2.1 r.2.2.2.1 : Int)).toNat +
    (wrap16 (u16 r.2.2.2.2.1 r.2.2.2.2.2 : Int) * wrap16 (u16 r.2.2.2.2.1 r.2.2.2.2.2 : Int)).toNat

/-- Definition following the words of the specification, for comparison
with `accelCheck`: sum of squares of the (signed) samples accumulated
into the same running sum, then a plain integer square root of the
total, against the same pass band 0x3f00..0x4070. -/
def accelCheckClaimed (len0 : Nat) (reads : Nat → Nat × Nat × Nat × Nat × Nat × Nat) :
    Nat × Bool :=
  let total := (List.range 16).foldl
    (fun acc i => (acc + accelSq3Claimed (reads i)) % 4294967296) len0
  let m := isqrt32 total
  (m, !(decide (m > 0x4070) || decide (m < 0x3f00)))

/-! ## Mode state machine (`modes_update`, pilot.c lines 198-224) -/

/-- Bit positions of `enum modes_e`, pilot.c lines 203-207. -/
def MODE_MOTORS_ARMED : Nat := 0

/-- Bit position of the compass-based heading-hold enable mode. -/
def MODE_HEADINGHOLD_ENABLE : Nat := 1

/-- Bit position of the pan-tilt enable mode. -/
def MODE_PANTILT_ENABLE : Nat := 2

/-- The two `uint8_t` globals `modes` and `prev_sw` of pilot.c lines
208-212. -/
structure ModesState where
  modes : Nat
  prev_sw : Nat
deriving DecidableEq, Repr

/-- The mode state machine `modes_update` of pilot.c lines 214-224.
`rx_gyro_sw` and `rx_right_pot` are the receiver switch and selector
readings (both `uint8_t`).  On an unchanged switch it is a no-op;
otherwise it records the switch, derives the bucket index
`num = (pot + 36) / 49`, keeps only bit `num` of `modes`
(`modes &= 1 << num`) and ORs the new switch value into that bit
(`modes |= prev_sw << num`), the result stored back into the
`uint8_t`. -/
def modes_update (rx_gyro_sw rx_right_pot : Nat) (s : ModesState) : ModesState :=
  if rx_gyro_sw = s.prev_sw then s
  else
    let prev_sw := rx_gyro_sw % 256
    let num := (rx_right_pot + 36) / 49
    let m1 := s.modes &&& (1 <<< num)
    let m2 := (m1 ||| (prev_sw <<< num)) % 256
    ⟨m2, prev_sw⟩

/-- Definition following the words of the specification, for comparison
with `modes_update`: on a transition, every mode bit except the bit at
the computed index is cleared, and that one bit is set according to the
new switch state, on or off. -/
def modes_update_claimed (rx_gyro_sw rx_right_pot : Nat) (s : ModesState) : ModesState :=
  if rx_gyro_sw = s.prev_sw then s
  else
    let num := (rx_right_pot + 36) / 49
    ⟨if rx_gyro_sw ≠ 0 then (1 <<< num) % 256 else 0, rx_gyro_sw % 256⟩

/-! ## Control mixer (`control_update`, pilot.c lines 226-311) -/

/-- Receiver channels consumed by the control mixer (all `uint8_t`
magnitudes): collective throttle, yaw stick, cyclic roll stick, cyclic
pitch stick. -/
structure RxState where
  co_throttle : Nat
  co_right : Nat
  cy_right : Nat
  cy_front : Nat
deriving DecidableEq, Repr

/-- The attitude-estimate fields consumed in the atomic snapshot of
pilot.c lines 245-249: `ahrs_pitch` and `ahrs_roll` are 32-bit
fixed-point angles, their rates and the yaw angle and yaw rate are
16-bit signed values. -/
structure Ahrs where
  pitch : Int
  roll : Int
  pitch_rate : Int
  roll_rate : Int
  yaw : Int
  yaw_rate : Int
deriving DecidableEq, Repr

/-- The effective stick value used by the mixer: pilot.c lines 251-255
replace the local copies of the three attitude sticks by the neutral
midpoint 0x80 when pan-tilt mode is enabled. -/
def effStick (modes : Nat) (v : Nat) : Int :=
  if modes.testBit MODE_PANTILT_ENABLE then 0x80 else (v : Int)

/-- The piecewise easing law applied to the pitch and roll errors,
pilot.c lines 268-280: inside the open deadband `(-0x400, 0x400)` the
error is arithmetically shifted right by 2; at or beyond the boundary a
bias of 0x300 is subtracted from a positive error and added to a
negative (or zero) one. -/
def ease (e : Int) : Int :=
  if e < 0x400 ∧ e > -0x400 then asr e 2
  else if e > 0 then e - 0x300
  else e + 0x300

/-- The yaw stick integrator delta added into `set_yaw` each tick,
pilot.c line 259: `((int16_t) co_right << 2) - (128 << 2)` on the
effective (possibly pan-tilt-overridden) yaw stick. -/
def yawDelta (modes : Nat) (rx : RxState) : Int := effStick modes rx.co_right * 4 - 512

/-- Current yaw estimate captured in the atomic snapshot, pilot.c line
248: `ahrs_yaw + (ahrs_yaw_rate << 1)` in 16-bit arithmetic. -/
def curYaw (ah : Ahrs) : Int := wrap16 (ah.yaw + 2 * ah.yaw_rate)

/-- Result of one control tick: the persistent `set_yaw` integrator, the
yaw term `dest_yaw` that enters the motor mix, and the four clamped
motor commands written to `actuator_set`. -/
structure CtrlOut where
  set_yaw : Int
  dest_yaw : Int
  a : Int
  b : Int
  c : Int
  d : Int
deriving DecidableEq, Repr

/-- The control mixer `control_update` of pilot.c lines 226-311, as a
function of the mode bit-set, the receiver snapshot, the attitude
snapshot and the persistent `static int16_t set_yaw`.  Every store into
a 16-bit quantity is wrapped; the four mix sums are formed in 32-bit
arithmetic (exact here) and clamped to `[0, 32000]`. -/
def control_update (modes : Nat) (rx : RxState) (ah : Ahrs) (set_yaw : Int) : CtrlOut :=
  let cur_pitch := wrap16 (asr ah.pitch 16 + asr ah.pitch_rate 2)
  let cur_roll := wrap16 (asr ah.roll 16 + asr ah.roll_rate 2)
  let cur_yaw := curYaw ah
  let co_right := effStick modes rx.co_right
  let cy_right := effStick modes rx.cy_right
  let cy_front := effStick modes rx.cy_front
  let dest_pitch := wrap16 (cy_front * 32 - 128 * 32)
  let dest_roll := wrap16 (cy_right * 32 - 128 * 32)
  let set_yaw1 := wrap16 (set_yaw + (co_right * 4 - 128 * 4))
  let dest_yaw := set_yaw1
  let base_throttle := wrap16 ((rx.co_throttle : Int) * 128)
  let dest_pitch := ease (wrap16 (-(cur_pitch + dest_pitch)))
  let dest_roll := ease (wrap16 (-(cur_roll + dest_roll)))
  let dest_yaw := wrap16 (cur_yaw - dest_yaw)
  let yawFinal :=
    if modes.testBit MODE_HEADINGHOLD_ENABLE then
      (cCLAMP dest_yaw (-0x800) 0x800, set_yaw1)
    else
      (wrap16 (128 * 32 - co_right * 32), cur_yaw)
  let dest_yaw := yawFinal.1
  let set_yaw2 := yawFinal.2
  let a := cCLAMP (base_throttle + dest_pitch + dest_roll + dest_yaw) 0 32000
  let b := cCLAMP (base_throttle - dest_pitch + dest_roll - dest_yaw) 0 32000
  let c := cCLAMP (base_throttle + dest_pitch - dest_roll - dest_yaw) 0 32000
  let d := cCLAMP (base_throttle - dest_pitch - dest_roll + dest_yaw) 0 32000
  ⟨set_yaw2, dest_yaw, a, b, c, d⟩

/-- Iterated control ticks: the value of the `set_yaw` integrator after
running `control_update` over a list of per-tick receiver and attitude
inputs, with a fixed mode bit-set. -/
def runSetYaw (modes : Nat) : List (RxState × Ahrs) → Int → Int
  | [], sy => sy
  | t :: rest, sy => runSetYaw modes rest (control_update modes t.1 t.2 sy).set_yaw

/-! ## Console input handler (`handle_input`, pilot.c lines 30-64) -/

/-- The four `uint8_t` motor test values, pilot.c line 20. -/
structure Motors where
  m0 : Nat
  m1 : Nat
  m2 : Nat
  m3 : Nat
deriving DecidableEq, Repr

/-- Read one motor test value by index. -/
def Motors.get (m : Motors) : Nat → Nat
  | 0 => m.m0
  | 1 => m.m1
  | 2 => m.m2
  | _ => m.m3

/-- Replace one motor test value by index. -/
def Motors.set (m : Motors) : Nat → Nat → Motors
  | 0, v => ⟨v, m.m1, m.m2, m.m3⟩
  | 1, v => ⟨m.m0, v, m.m2, m.m3⟩
  | 2, v => ⟨m.m0, m.m1, v, m.m3⟩
  | _, v => ⟨m.m0, m.m1, m.m2, v⟩

/-- The `MOTOR_DOWN(n)` macro, pilot.c lines 32-36: decrement
`motor[n]` unless it is already 0. -/
def motorDownVal (v : Nat) : Nat := if v > 0 then v - 1 else v

/-- The `MOTOR_UP(n)` macro, pilot.c lines 37-41: increment `motor[n]`
unless it is already 255. -/
def motorUpVal (v : Nat) : Nat := if v < 255 then v + 1 else v

/-- The console command dispatch of pilot.c lines 42-57: which motor
index a character addresses and in which direction, `none` for every
unrecognized character (which falls into `default: return`). -/
def commandOf : Char → Option (Nat × Bool)
  | 'a' => some (0, false)
  | 's' => some (1, false)
  | 'd' => some (2, false)
  | 'f' => some (3, false)
  | 'q' => some (0, true)
  | 'w' => some (1, true)
  | 'e' => some (2, true)
  | 'r' => some (3, true)
  | _ => none

/-- The console input handler `handle_input` of pilot.c lines 30-64.
Returns the updated motor test values together with the actuator write
performed by the accepted command: `some (n, val)` means
`actuator_set(n, val)` was called with `val = motor[n] << 8` computed
from the updated value; `none` means the character was ignored and no
write happened. -/
def handle_input (ch : Char) (m : Motors) : Motors × Option (Nat × Nat) :=
  match commandOf ch with
  | none => (m, none)
  | some (n, up) =>
    let m1 := m.set n (if up then motorUpVal (m.get n) else motorDownVal (m.get n))
    (m1, some (n, (m1.get n) <<< 8))

/-! ## Boot safety gate and lifecycle (`setup`, `die`, `loop`, `main`) -/

/-- The boot-time sensor and receiver readings consumed by the sanity
checks of `setup`, pilot.c lines 119-185, in the order the code reads
them: the magnetometer identity byte, the initial gyro ADC triple and
the re-read triples, the six magnetometer field bytes and the three
stored calibration offsets, the sixteen accelerometer register reads,
and the receiver signal-loss counter and throttle channel. -/
structure BootInput where
  ver : Nat
  gyro0 : Nat × Nat × Nat
  gyroReads : Nat → Nat × Nat × Nat
  magRegs : Nat × Nat × Nat × Nat × Nat × Nat
  magCalib : Int × Int × Int
  accelReads : Nat → Nat × Nat × Nat × Nat × Nat × Nat
  rx_no_signal : Nat
  rx_co_throttle : Nat

/-- Observable outcome of the boot sequence: whether the absorbing halt
of `die()` was entered, whether interrupts are enabled afterwards,
whether `actuators_start()` was reached, and whether the fixed "ERROR"
diagnostic of `die()` was emitted. -/
structure BootOutcome where
  halted : Bool
  interruptsEnabled : Bool
  actuatorsStarted : Bool
  errorEmitted : Bool
deriving DecidableEq, Repr

/-- The outcome of `die()`, pilot.c lines 67-71: `cli()`, the fixed
"ERROR" diagnostic, then `while (1);` — interrupts stay disabled and
`actuators_start()` is never reached. -/
def dieOutcome : BootOutcome := ⟨true, false, false, true⟩

/-- The outcome of a fully successful `setup()`: `ahrs_init()` and
`actuators_start()` run with interrupts enabled and no diagnostic. -/
def runOutcome : BootOutcome := ⟨false, true, true, false⟩

/-- The sanity-check sequence of `setup`, pilot.c lines 119-196:
magnetometer identity, gyro zero-rate polling, magnetic-field magnitude
(whose magnitude is left in `len`), accelerometer rest magnitude
(accumulating into that same `len`), and the receiver throttle-position
check; the first failure calls `die()`, full success starts the AHRS
loop and the actuators. -/
def setup (inp : BootInput) : BootOutcome :=
  if inp.ver ≠ 0x02 then dieOutcome
  else if gyroCheckPasses inp.gyro0 inp.gyroReads = false then dieOutcome
  else
    let mg := magCheck inp.magRegs inp.magCalib
    if mg.2 = false then dieOutcome
    else
      let ac := accelCheck mg.1 inp.accelReads
      if ac.2 = false then dieOutcome
      else if inp.rx_no_signal = 0 ∧ inp.rx_co_throttle > 5 then dieOutcome
      else runOutcome

/-- All five boot sanity checks pass, stated as the conjunction of the
individual check predicates in program order (the accelerometer check
is fed the magnitude left in `len` by the magnetic-field check). -/
def checksPass (inp : BootInput) : Prop :=
  inp.ver = 0x02 ∧
  gyroCheckPasses inp.gyro0 inp.gyroReads = true ∧
  (magCheck inp.magRegs inp.magCalib).2 = true ∧
  (accelCheck (magCheck inp.magRegs inp.magCalib).1 inp.accelReads).2 = true ∧
  ¬(inp.rx_no_signal = 0 ∧ inp.rx_co_throttle > 5)

instance (inp : BootInput) : Decidable (checksPass inp) := by
  unfold checksPass; infer_instance

/-- Lifecycle phase after boot: the forever loop of `main`, or the
absorbing `while (1);` of `die`. -/
inductive Phase where
  | running
  | halted
deriving DecidableEq, Repr

/-- The mutable state carried across main-loop ticks: the lifecycle
phase, the mode state machine state, the `set_yaw` integrator and the
last four motor commands written. -/
structure Machine where
  phase : Phase
  modesSt : ModesState
  set_yaw : Int
  motors : Int × Int × Int × Int
deriving DecidableEq, Repr

/-- The per-tick inputs of `loop`, pilot.c lines 313-326: the receiver
switch and selector consumed by `modes_update` and the channel and
attitude snapshots consumed by `control_update`. -/
structure TickInput where
  rx_gyro_sw : Nat
  rx_right_pot : Nat
  rx : RxState
  ah : Ahrs

/-- One iteration of the system after boot: in the running phase, the
body of `loop` (pilot.c lines 313-317) runs `modes_update` then
`control_update`; in the halted phase of `die` no code executes and the
state is unchanged. -/
def loopStep (i : TickInput) (m : Machine) : Machine :=
  match m.phase with
  | .halted => m
  | .running =>
    let ms := modes_update i.rx_gyro_sw i.rx_right_pot m.modesSt
    let c := control_update ms.modes i.rx i.ah m.set_yaw
    ⟨.running, ms, c.set_yaw, (c.a, c.b, c.c, c.d)⟩

/-- Any finite number of further iterations, fed by a list of per-tick
inputs. -/
def runSteps : List TickInput → Machine → Machine
  | [], m => m
  | i :: rest, m => runSteps rest (loopStep i m)

/-! ## Basic arithmetic lemmas -/

lemma wrap16_bounds (a : Int) : -32768 ≤ wrap16 a ∧ wrap16 a < 32768 := by
  unfold wrap16; omega

lemma wrap16_fixed (a : Int) (h1 : -32768 ≤ a) (h2 : a < 32768) : wrap16 a = a := by
  unfold wrap16; omega

lemma wrap16_add_left (a b : Int) : wrap16 (wrap16 a + b) = wrap16 (a + b) := by
  unfold wrap16; omega

lemma cCLAMP_bounds (x mi ma : Int) (h : mi ≤ ma) :
    mi ≤ cCLAMP x mi ma ∧ cCLAMP x mi ma ≤ ma := by
  unfold cCLAMP
  dsimp only
  split <;> split <;> omega

/-! ## C4: every motor command is inside the clamp range -/

/-- C4: for every combination of mode flags, receiver channels,
attitude snapshot and yaw-setpoint state, each of the four motor
commands computed and written by `control_update` lies in the fixed
clamp range `[0, 32000]`. -/
theorem C4_motor_commands_clamped (modes : Nat) (rx : RxState) (ah : Ahrs) (sy : Int) :
    (0 ≤ (control_update modes rx ah sy).a ∧ (control_update modes rx ah sy).a ≤ 32000) ∧
    (0 ≤ (control_update modes rx ah sy).b ∧ (control_update modes rx ah sy).b ≤ 32000) ∧
    (0 ≤ (control_update modes rx ah sy).c ∧ (control_update modes rx ah sy).c ≤ 32000) ∧
    (0 ≤ (control_update modes rx ah sy).d ∧ (control_update modes rx ah sy).d ≤ 32000) := by
  unfold control_update
  dsimp only
  refine ⟨?_, ?_, ?_, ?_⟩ <;> split <;>
    exact cCLAMP_bounds _ _ _ (by norm_num)

/-! ## C9: continuity of the easing law at the deadband boundary -/

/-- C9: the piecewise easing law is continuous at the deadband
boundary: at error magnitude 0x400 the biased branch produces exactly
0x100 in magnitude, the same value the shift-by-2 branch yields at
0x400, and over the whole 16-bit input range two adjacent inputs never
differ by more than 1 in output, so there is no discontinuous jump on
either side. -/
theorem C9_easing_continuous :
    ease 0x400 = 0x100 ∧ ease (-0x400) = -0x100 ∧
    asr 0x400 2 = 0x100 ∧ asr (-0x400) 2 = -0x100 ∧
    ∀ e : Int, -0x8000 ≤ e → e ≤ 0x7ffe → (ease (e + 1) - ease e).natAbs ≤ 1 := by
  refine ⟨by decide, by decide, by decide, by decide, ?_⟩
  intro e h1 h2
  unfold ease asr
  norm_num
  split_ifs <;> omega

/-- Witness for C9 at a concrete input crossing the positive deadband
boundary. -/
theorem C9_easing_continuous_witness :
    (ease (0x3ff + 1) - ease 0x3ff).natAbs ≤ 1 :=
  C9_easing_continuous.2.2.2.2 0x3ff (by norm_num) (by norm_num)

/-! ## C7: yaw setpoint reset while heading-hold is disabled -/

/-- C7: with heading-hold disabled, at the end of every control tick
the yaw setpoint equals the current yaw estimate captured in that tick,
and the yaw term entering the mix is recomputed directly from the
current (effective) yaw stick, so no residual drift is carried to the
next tick. -/
theorem C7_yaw_setpoint_reset (modes : Nat) (rx : RxState) (ah : Ahrs) (sy : Int)
    (hh : modes.testBit MODE_HEADINGHOLD_ENABLE = false) :
    (control_update modes rx ah sy).set_yaw = curYaw ah ∧
    (control_update modes rx ah sy).dest_yaw =
      wrap16 (128 * 32 - effStick modes rx.co_right * 32) := by
  unfold control_update
  simp [hh]

/-- Witness for C7 at the all-neutral input with all modes off. -/
theorem C7_yaw_setpoint_reset_witness :
    (control_update 0 ⟨0, 0, 0, 0⟩ ⟨0, 0, 0, 0, 0, 0⟩ 0).set_yaw = curYaw ⟨0, 0, 0, 0, 0, 0⟩ ∧
    (control_update 0 ⟨0, 0, 0, 0⟩ ⟨0, 0, 0, 0, 0, 0⟩ 0).dest_yaw =
      wrap16 (128 * 32 - effStick 0 (0 : Nat) * 32) :=
  C7_yaw_setpoint_reset 0 ⟨0, 0, 0, 0⟩ ⟨0, 0, 0, 0, 0, 0⟩ 0 (by decide)

/-! ## C8: heading-hold yaw integrator and yaw-error clamp -/

lemma control_update_set_yaw_hh (modes : Nat) (rx : RxState) (ah : Ahrs) (sy : Int)
    (hh : modes.testBit MODE_HEADINGHOLD_ENABLE = true) :
    (control_update modes rx ah sy).set_yaw = wrap16 (sy + yawDelta modes rx) := by
  unfold control_update yawDelta
  simp [hh]

lemma control_update_dest_yaw_hh (modes : Nat) (rx : RxState) (ah : Ahrs) (sy : Int)
    (hh : modes.testBit MODE_HEADINGHOLD_ENABLE = true) :
    -0x800 ≤ (control_update modes rx ah sy).dest_yaw ∧
      (control_update modes rx ah sy).dest_yaw ≤ 0x800 := by
  unfold control_update
  simp [hh]
  exact cCLAMP_bounds _ _ _ (by norm_num)

/-- C8: with heading-hold enabled throughout, the yaw setpoint after a
sequence of control ticks equals its starting value advanced by the sum
of the per-tick stick-derived deltas `(yaw-stick - 128) * 4` (in 16-bit
arithmetic), and in every tick the yaw error entering the motor mix is
clamped into the fixed symmetric range `[-0x800, 0x800]`. -/
theorem C8_heading_hold_integrator (modes : Nat) (ticks : List (RxState × Ahrs)) (sy : Int)
    (hh : modes.testBit MODE_HEADINGHOLD_ENABLE = true)
    (h1 : -32768 ≤ sy) (h2 : sy < 32768) :
    runSetYaw modes ticks sy =
      wrap16 (sy + (ticks.map (fun t => yawDelta modes t.1)).sum) ∧
    ∀ (rx : RxState) (ah : Ahrs) (sy0 : Int),
      -0x800 ≤ (control_update modes rx ah sy0).dest_yaw ∧
        (control_update modes rx ah sy0).dest_yaw ≤ 0x800 := by
  constructor
  · induction ticks generalizing sy with
    | nil => simpa [runSetYaw] using (wrap16_fixed sy h1 h2).symm
    | cons t rest ih =>
      rw [runSetYaw, control_update_set_yaw_hh _ _ _ _ hh]
      have hb := wrap16_bounds (sy + yawDelta modes t.1)
      rw [ih _ hb.1 hb.2, wrap16_add_left]
      simp [List.sum_cons]
      ring_nf
  · intro rx ah sy0
    exact control_update_dest_yaw_hh modes rx ah sy0 hh

/-- Witness for C8: one tick with only the heading-hold bit set, the
yaw stick two steps above neutral, and a resting attitude. -/
theorem C8_heading_hold_integrator_witness :
    runSetYaw 2 [(⟨0, 130, 0, 0⟩, ⟨0, 0, 0, 0, 0, 0⟩)] 0 =
      wrap16 (0 + ([(((⟨0, 130, 0, 0⟩ : RxState), (⟨0, 0, 0, 0, 0, 0⟩ : Ahrs)))].map
        (fun t => yawDelta 2 t.1)).sum) ∧
    (-0x800 ≤ (control_update 2 ⟨0, 130, 0, 0⟩ ⟨0, 0, 0, 0, 0, 0⟩ 0).dest_yaw ∧
      (control_update 2 ⟨0, 130, 0, 0⟩ ⟨0, 0, 0, 0, 0, 0⟩ 0).dest_yaw ≤ 0x800) :=
  ⟨(C8_heading_hold_integrator 2 [(⟨0, 130, 0, 0⟩, ⟨0, 0, 0, 0, 0, 0⟩)] 0
      (by decide) (by norm_num) (by norm_num)).1,
   (C8_heading_hold_integrator 2 [(⟨0, 130, 0, 0⟩, ⟨0, 0, 0, 0, 0, 0⟩)] 0
      (by decide) (by norm_num) (by norm_num)).2 ⟨0, 130, 0, 0⟩ ⟨0, 0, 0, 0, 0, 0⟩ 0⟩

/-! ## C10: console motor-test commands -/

lemma commandOf_index_le (ch : Char) (n : Nat) (up : Bool)
    (h : commandOf ch = some (n, up)) : n ≤ 3 := by
  unfold commandOf at h
  split at h <;> simp_all <;> omega

lemma Motors.get_set_self (m : Motors) (n v : Nat) (hn : n ≤ 3) :
    (m.set n v).get n = v := by
  interval_cases n <;> rfl

lemma Motors.set_le (m : Motors) (n v : Nat) (hv : v ≤ 255)
    (h0 : m.m0 ≤ 255) (h1 : m.m1 ≤ 255) (h2 : m.m2 ≤ 255) (h3 : m.m3 ≤ 255) :
    (m.set n v).m0 ≤ 255 ∧ (m.set n v).m1 ≤ 255 ∧
      (m.set n v).m2 ≤ 255 ∧ (m.set n v).m3 ≤ 255 := by
  match n with
  | 0 => exact ⟨hv, h1, h2, h3⟩
  | 1 => exact ⟨h0, hv, h2, h3⟩
  | 2 => exact ⟨h0, h1, hv, h3⟩
  | k + 3 => exact ⟨h0, h1, h2, hv⟩

lemma Motors.get_le (m : Motors) (n : Nat)
    (h0 : m.m0 ≤ 255) (h1 : m.m1 ≤ 255) (h2 : m.m2 ≤ 255) (h3 : m.m3 ≤ 255) :
    m.get n ≤ 255 := by
  match n with
  | 0 => exact h0
  | 1 => exact h1
  | 2 => exact h2
  | k + 3 => exact h3

lemma handle_input_none (ch : Char) (m : Motors) (h : commandOf ch = none) :
    handle_input ch m = (m, none) := by
  unfold handle_input; rw [h]

lemma handle_input_some (ch : Char) (m : Motors) (n : Nat) (up : Bool)
    (h : commandOf ch = some (n, up)) :
    handle_input ch m =
      (m.set n (if up then motorUpVal (m.get n) else motorDownVal (m.get n)),
        some (n, (m.set n (if up then motorUpVal (m.get n) else motorDownVal (m.get n))).get n <<< 8)) := by
  unfold handle_input; rw [h]

lemma motor_newVal_le (m : Motors) (k : Nat) (up : Bool)
    (h0 : m.m0 ≤ 255) (h1 : m.m1 ≤ 255) (h2 : m.m2 ≤ 255) (h3 : m.m3 ≤ 255) :
    (if up then motorUpVal (m.get k) else motorDownVal (m.get k)) ≤ 255 := by
  have hg := Motors.get_le m k h0 h1 h2 h3
  cases up <;> simp only [motorUpVal, motorDownVal, Bool.false_eq_true,
    if_true, if_false] <;> split_ifs <;> omega

/-- C10: every console input character preserves the invariant that
each of the four motor test values stays in `[0, 255]`; every accepted
command immediately calls `actuator_set` with the updated value times
256, which never exceeds 65280; an unrecognized character changes
nothing and writes nothing; and the written value actually reaches
65280 — above the 32000 clamp bound of the control loop. -/
theorem C10_console_motor_test (ch : Char) (m : Motors)
    (h0 : m.m0 ≤ 255) (h1 : m.m1 ≤ 255) (h2 : m.m2 ≤ 255) (h3 : m.m3 ≤ 255) :
    ((handle_input ch m).1.m0 ≤ 255 ∧ (handle_input ch m).1.m1 ≤ 255 ∧
      (handle_input ch m).1.m2 ≤ 255 ∧ (handle_input ch m).1.m3 ≤ 255) ∧
    (∀ n v, (handle_input ch m).2 = some (n, v) →
      v = (handle_input ch m).1.get n * 256 ∧ v ≤ 65280) ∧
    ((handle_input ch m).2 = none → (handle_input ch m).1 = m) ∧
    ((handle_input 'q' ⟨255, 0, 0, 0⟩).2 = some (0, 65280) ∧ 32000 < 65280) := by
  refine ⟨?_, ?_, ?_, by decide, by norm_num⟩
  · rcases hc : commandOf ch with _ | ⟨k, up⟩
    · rw [handle_input_none ch m hc]
      exact ⟨h0, h1, h2, h3⟩
    · rw [handle_input_some ch m k up hc]
      exact Motors.set_le m k _ (motor_newVal_le m k up h0 h1 h2 h3) h0 h1 h2 h3
  · intro n v hv
    rcases hc : commandOf ch with _ | ⟨k, up⟩
    · rw [handle_input_none ch m hc] at hv
      exact absurd hv (by simp)
    · rw [handle_input_some ch m k up hc] at hv
      rw [handle_input_some ch m k up hc]
      have hk : k ≤ 3 := commandOf_index_le ch k up hc
      have hval : (m.set k (if up then motorUpVal (m.get k) else motorDownVal (m.get k))).get k ≤ 255 := by
        rw [Motors.get_set_self _ _ _ hk]
        exact motor_newVal_le m k up h0 h1 h2 h3
      simp only [Option.some.injEq, Prod.mk.injEq] at hv
      obtain ⟨hn, hv⟩ := hv
      subst hn hv
      constructor
      · rw [Nat.shiftLeft_eq]
      · rw [Nat.shiftLeft_eq]
        calc _ ≤ 255 * 2 ^ 8 := Nat.mul_le_mul_right _ hval
          _ = 65280 := by norm_num
  · intro hn
    rcases hc : commandOf ch with _ | ⟨k, up⟩
    · rw [handle_input_none ch m hc]
    · rw [handle_input_some ch m k up hc] at hn
      exact absurd hn (by simp)

/-- Witness for C10 at an increment command on a saturated motor 0. -/
theorem C10_console_motor_test_witness :
    (((handle_input 'q' ⟨255, 255, 255, 255⟩).1.m0 ≤ 255 ∧
      (handle_input 'q' ⟨255, 255, 255, 255⟩).1.m1 ≤ 255 ∧
      (handle_input 'q' ⟨255, 255, 255, 255⟩).1.m2 ≤ 255 ∧
      (handle_input 'q' ⟨255, 255, 255, 255⟩).1.m3 ≤ 255) ∧
    (∀ n v, (handle_input 'q' ⟨255, 255, 255, 255⟩).2 = some (n, v) →
      v = (handle_input 'q' ⟨255, 255, 255, 255⟩).1.get n * 256 ∧ v ≤ 65280) ∧
    ((handle_input 'q' ⟨255, 255, 255, 255⟩).2 = none →
      (handle_input 'q' ⟨255, 255, 255, 255⟩).1 = ⟨255, 255, 255, 255⟩) ∧
    ((handle_input 'q' ⟨255, 0, 0, 0⟩).2 = some (0, 65280) ∧ 32000 < 65280)) :=
  C10_console_motor_test 'q' ⟨255, 255, 255, 255⟩
    (by norm_num) (by norm_num) (by norm_num) (by norm_num)

/-! ## C3: mode update on a switch transition -/

lemma testBit_mod256 (x k : Nat) :
    (x % 256).testBit k = (decide (k < 8) && x.testBit k) := by
  have h : (256 : Nat) = 2 ^ 8 := by norm_num
  rw [h, Nat.testBit_mod_two_pow]

/-- Bit-level description of the `modes` byte produced by a switch
transition: bit `k` survives only when `k` is the selected bucket index
and either it was set before or the new switch value is 1. -/
lemma modes_update_testBit (sw pot : Nat) (s : ModesState) (hch : sw ≠ s.prev_sw)
    (hsw : sw ≤ 1) (k : Nat) :
    (modes_update sw pot s).modes.testBit k =
      (decide (k < 8) && decide ((pot + 36) / 49 = k) &&
        (s.modes.testBit k || decide (sw = 1))) := by
  unfold modes_update
  rw [if_neg hch]
  dsimp only
  rw [Nat.mod_eq_of_lt (show sw < 256 by omega)]
  rw [testBit_mod256, Nat.testBit_lor, Nat.testBit_land, Nat.one_shiftLeft,
    Nat.testBit_two_pow]
  interval_cases sw
  · simp only [Nat.zero_shiftLeft, Nat.zero_testBit]
    cases hd : decide ((pot + 36) / 49 = k) <;>
      cases hb : s.modes.testBit k <;> simp_all
  · rw [Nat.one_shiftLeft, Nat.testBit_two_pow]
    cases hd : decide ((pot + 36) / 49 = k) <;>
      cases hb : s.modes.testBit k <;> simp_all

/-- Counterexample to C3 as stated: with `modes = 1`, `prev_sw = 1`, a
transition of the switch to 0 with the selector in bucket 0 leaves bit
0 set (the code only ORs the new switch value in), whereas the claim
says the indexed bit afterwards reflects the new (off) switch state, as
`modes_update_claimed` does. -/
theorem C3_counterexample :
    (modes_update 0 0 ⟨1, 1⟩).modes = 1 ∧
    (modes_update 0 0 ⟨1, 1⟩).modes.testBit 0 = true ∧
    (modes_update_claimed 0 0 ⟨1, 1⟩).modes = 0 ∧
    (modes_update 0 0 ⟨1, 1⟩).modes ≠ (modes_update_claimed 0 0 ⟨1, 1⟩).modes := by
  refine ⟨by decide, by decide, by decide, by decide⟩

/-- C3 amended: on a detected mode-switch transition, `modes_update`
records the new switch value and clears every mode bit except the bit
at the bucket index `(pot + 36) / 49`; that one bit is ORed with the
new switch state, so it is set when the switch turned on and keeps its
prior value when the switch turned off (it does not simply reflect the
new switch state). -/
theorem C3_modes_update_amended (sw pot : Nat) (s : ModesState)
    (hch : sw ≠ s.prev_sw) (hsw : sw ≤ 1) (hpot : pot ≤ 255) :
    (modes_update sw pot s).prev_sw = sw ∧
    (∀ k, k ≠ (pot + 36) / 49 → (modes_update sw pot s).modes.testBit k = false) ∧
    (modes_update sw pot s).modes.testBit ((pot + 36) / 49) =
      (s.modes.testBit ((pot + 36) / 49) || decide (sw = 1)) := by
  refine ⟨?_, ?_, ?_⟩
  · unfold modes_update
    rw [if_neg hch]
    exact Nat.mod_eq_of_lt (by omega)
  · intro k hk
    rw [modes_update_testBit sw pot s hch hsw k]
    have : decide ((pot + 36) / 49 = k) = false := by
      simp only [decide_eq_false_iff_not]
      exact fun h => hk h.symm
    rw [this]
    simp
  · rw [modes_update_testBit sw pot s hch hsw ((pot + 36) / 49)]
    have h8 : (pot + 36) / 49 < 8 := by omega
    simp [h8]

/-- Witness for C3 amended: switch turning on with the selector in
bucket 2 clears the previously set bit 0 and sets bit 2. -/
theorem C3_modes_update_amended_witness :
    (modes_update 1 100 ⟨1, 0⟩).prev_sw = 1 ∧
    (∀ k, k ≠ (100 + 36) / 49 → (modes_update 1 100 ⟨1, 0⟩).modes.testBit k = false) ∧
    (modes_update 1 100 ⟨1, 0⟩).modes.testBit ((100 + 36) / 49) =
      ((1 : Nat).testBit ((100 + 36) / 49) || decide ((1 : Nat) = 1)) :=
  C3_modes_update_amended 1 100 ⟨1, 0⟩ (by norm_num) (by norm_num) (by norm_num)

/-! ## C2: gyro zero-rate polling -/

lemma gyroLoop_le (f : Nat → Nat × Nat × Nat) :
    ∀ (fuel : Nat) (r : Nat × Nat × Nat) (cnt : Nat), gyroLoop f fuel r cnt ≤ fuel + cnt := by
  intro fuel
  induction fuel with
  | zero => intro r cnt; simp [gyroLoop]
  | succ fuel ih =>
    intro r cnt
    rw [gyroLoop]
    by_cases hband : gyroBand r = true
    · rw [if_pos hband]
      by_cases hlt : cnt < 20
      · rw [if_pos hlt]
        have := ih (f cnt) (cnt + 1)
        omega
      · rw [if_neg hlt]; omega
    · rw [if_neg hband]; omega

/-- Characterization of the polling loop: started with `fuel + cnt = 21`
and `cnt ≤ 20`, it reaches the passing count 21 exactly when the current
reading and every remaining re-read stay inside the band. -/
lemma gyroLoop_spec (f : Nat → Nat × Nat × Nat) :
    ∀ (fuel : Nat) (r : Nat × Nat × Nat) (cnt : Nat), fuel + cnt = 21 → cnt ≤ 20 →
      (gyroLoop f fuel r cnt = 21 ↔
        (gyroBand r = true ∧ ∀ i, cnt ≤ i → i < 20 → gyroBand (f i) = true)) := by
  intro fuel
  induction fuel with
  | zero => intro r cnt h hcnt; omega
  | succ fuel ih =>
    intro r cnt h hcnt
    rw [gyroLoop]
    by_cases hband : gyroBand r = true
    · rw [if_pos hband]
      by_cases hlt : cnt < 20
      · rw [if_pos hlt]
        rw [ih (f cnt) (cnt + 1) (by omega) (by omega)]
        constructor
        · rintro ⟨hb, hrest⟩
          refine ⟨hband, fun i hi1 hi2 => ?_⟩
          rcases Nat.eq_or_lt_of_le hi1 with heq | hlt2
          · rw [← heq]; exact hb
          · exact hrest i (by omega) hi2
        · rintro ⟨-, hall⟩
          exact ⟨hall cnt le_rfl hlt, fun i h1 h2 => hall i (by omega) h2⟩
      · rw [if_neg hlt]
        have hc : cnt = 20 := by omega
        subst hc
        constructor
        · intro _
          exact ⟨hband, fun i h1 h2 => absurd h2 (by omega)⟩
        · intro _; rfl
    · rw [if_neg hband]
      constructor
      · intro hc; omega
      · rintro ⟨hb, -⟩; exact absurd hb hband

/-- Counterexample to C2 as stated: a single transient out-of-band
reading (the initial one, out of band on the first axis only) is
immediately fatal even though every subsequent poll is in band — the
loop exits with `cnt = 0`, showing that no retry at all was consumed
and the 20-poll budget was nowhere near exhausted, yet the check
fails.  The claim says such a reading merely consumes one retry and the
gate halts only on budget exhaustion without convergence. -/
theorem C2_counterexample :
    gyroCheckPasses (0x200, 768, 768) (fun _ => (768, 768, 768)) = false ∧
    inBand 0x200 = false ∧ inBand 768 = true ∧
    gyroBand (768, 768, 768) = true ∧
    gyroLoop (fun _ => (768, 768, 768)) 21 (0x200, 768, 768) 0 = 0 := by
  refine ⟨by decide, by decide, by decide, by decide, by decide⟩

/-- C2 amended: an out-of-band reading on any poll immediately ends the
gyro check on the fatal path; the Safety Gate passes the check exactly
when the initial readings and all 20 re-polls keep all three axes
inside the band — staying in band through the whole budget is the pass
condition, not a halt condition. -/
theorem C2_gyro_amended (r0 : Nat × Nat × Nat) (f : Nat → Nat × Nat × Nat) :
    gyroCheckPasses r0 f = true ↔
      (gyroBand r0 = true ∧ ∀ i, i < 20 → gyroBand (f i) = true) := by
  unfold gyroCheckPasses
  rw [decide_eq_true_eq]
  have hle := gyroLoop_le f 21 r0 0
  have hspec := gyroLoop_spec f 21 r0 0 (by norm_num) (by norm_num)
  constructor
  · intro h
    have h21 : gyroLoop f 21 r0 0 = 21 := by omega
    have hc := hspec.mp h21
    exact ⟨hc.1, fun i hi => hc.2 i (Nat.zero_le i) hi⟩
  · intro h
    have h21 : gyroLoop f 21 r0 0 = 21 := hspec.mpr ⟨h.1, fun i _ hi => h.2 i hi⟩
    omega

/-- Witness for C2 amended: constant in-band readings pass the check. -/
theorem C2_gyro_amended_witness :
    gyroCheckPasses (768, 768, 768) (fun _ => (768, 768, 768)) = true :=
  (C2_gyro_amended (768, 768, 768) (fun _ => (768, 768, 768))).mpr
    ⟨by decide, fun i _ => by decide⟩

/-! ## C5: magnetic-field magnitude check -/

lemma sqrt_eval (n q : Nat) (h1 : q * q ≤ n) (h2 : n < (q + 1) * (q + 1)) :
    Nat.sqrt n = q := (Nat.eq_sqrt.mpr ⟨h1, h2⟩).symm

lemma sq_sum3_toNat_lt (a b c : Int)
    (ha1 : -32768 ≤ a) (ha2 : a < 32768) (hb1 : -32768 ≤ b) (hb2 : b < 32768)
    (hc1 : -32768 ≤ c) (hc2 : c < 32768) :
    (a * a + b * b + c * c).toNat < 4294967296 := by
  have h1 : a * a ≤ 1073741824 := by nlinarith
  have h2 : b * b ≤ 1073741824 := by nlinarith
  have h3 : c * c ≤ 1073741824 := by nlinarith
  have h0a : 0 ≤ a * a := mul_self_nonneg a
  have h0b : 0 ≤ b * b := mul_self_nonneg b
  have h0c : 0 ≤ c * c := mul_self_nonneg c
  omega

/-- Counterexample to C5 as stated: with zero calibration offsets and
raw axis readings of 200 on each of the three axes, the code computes
the 3-D magnitude 346 (sqrt of 3 * 200^2) and passes, while the 2-D
Euclidean norm the claim describes is 282 (sqrt of 2 * 200^2) and would
halt — the third squared axis offset visibly enters the code's sum. -/
theorem C5_counterexample :
    (magCheck (0, 200, 0, 200, 0, 200) (0, 0, 0)).1 = 346 ∧
    (magCheck (0, 200, 0, 200, 0, 200) (0, 0, 0)).2 = true ∧
    (magCheckClaimed (0, 200, 0, 200, 0, 200) (0, 0, 0)).1 = 282 ∧
    (magCheckClaimed (0, 200, 0, 200, 0, 200) (0, 0, 0)).2 = false := by
  have hs1 : Nat.sqrt 120000 = 346 := sqrt_eval _ _ (by norm_num) (by norm_num)
  have hs2 : Nat.sqrt 80000 = 282 := sqrt_eval _ _ (by norm_num) (by norm_num)
  have hv : magAxisOffset 0 200 0 = 200 := by decide
  have ht1 : (120000 : Int).toNat = 120000 := rfl
  have ht2 : (80000 : Int).toNat = 80000 := rfl
  refine ⟨?_, ?_, ?_, ?_⟩ <;>
    simp only [magCheck, magCheckClaimed, isqrt32, hv] <;>
    norm_num [ht1, ht2, hs1, hs2]

/-- C5 amended: the magnetic-field magnitude check subtracts the stored
per-axis calibration offsets from the three compass axis readings,
computes the vector magnitude of the three offset values as a 3-D (not
2-D) Euclidean norm via integer square root, and halts unless the
result lies within the inclusive pass band 300 to 600. -/
theorem C5_mag_amended (regs : Nat × Nat × Nat × Nat × Nat × Nat)
    (calib : Int × Int × Int) :
    (magCheck regs calib).1 =
      Nat.sqrt ((magAxisOffset regs.1 regs.2.1 calib.1 *
          magAxisOffset regs.1 regs.2.1 calib.1 +
        magAxisOffset regs.2.2.1 regs.2.2.2.1 calib.2.1 *
          magAxisOffset regs.2.2.1 regs.2.2.2.1 calib.2.1 +
        magAxisOffset regs.2.2.2.2.1 regs.2.2.2.2.2 calib.2.2 *
          magAxisOffset regs.2.2.2.2.1 regs.2.2.2.2.2 calib.2.2).toNat) ∧
    ((magCheck regs calib).2 = true ↔
      300 ≤ (magCheck regs calib).1 ∧ (magCheck regs calib).1 ≤ 600) := by
  have hmod : (magAxisOffset regs.1 regs.2.1 calib.1 *
        magAxisOffset regs.1 regs.2.1 calib.1 +
      magAxisOffset regs.2.2.1 regs.2.2.2.1 calib.2.1 *
        magAxisOffset regs.2.2.1 regs.2.2.2.1 calib.2.1 +
      magAxisOffset regs.2.2.2.2.1 regs.2.2.2.2.2 calib.2.2 *
        magAxisOffset regs.2.2.2.2.1 regs.2.2.2.2.2 calib.2.2).toNat < 4294967296 := by
    apply sq_sum3_toNat_lt <;>
      first
        | exact (wrap16_bounds _).1
        | exact (wrap16_bounds _).2
  constructor
  · simp only [magCheck, isqrt32]
    rw [Nat.mod_eq_of_lt hmod]
  · simp only [magCheck, isqrt32]
    constructor
    · intro h
      have := of_decide_eq_true (by simpa using h)
      omega
    · intro h
      simp only [Bool.not_eq_true', Bool.or_eq_false_iff, decide_eq_false_iff_not]
      omega

/-! ## C6: accelerometer rest-magnitude check -/

lemma accelStep_eq (acc : Nat) (r : Nat × Nat × Nat × Nat × Nat × Nat) :
    accelStep acc r = (acc + accelSq3 r) % 4294967296 := by
  simp only [accelStep, accelSq3]
  omega

lemma accelFold_eq (reads : Nat → Nat × Nat × Nat × Nat × Nat × Nat) :
    ∀ (l : List Nat) (acc : Nat), acc < 4294967296 →
      l.foldl (fun a i => accelStep a (reads i)) acc =
        (acc + (l.map (fun i => accelSq3 (reads i))).sum) % 4294967296 := by
  intro l
  induction l with
  | nil => intro acc h; simp [Nat.mod_eq_of_lt h]
  | cons x xs ih =>
    intro acc h
    rw [List.foldl_cons, accelStep_eq, ih _ (Nat.mod_lt _ (by norm_num))]
    simp only [List.map_cons, List.sum_cons]
    omega

lemma claimedFold_eq (reads : Nat → Nat × Nat × Nat × Nat × Nat × Nat) :
    ∀ (l : List Nat) (acc : Nat), acc < 4294967296 →
      l.foldl (fun a i => (a + accelSq3Claimed (reads i)) % 4294967296) acc =
        (acc + (l.map (fun i => accelSq3Claimed (reads i))).sum) % 4294967296 := by
  intro l
  induction l with
  | nil => intro acc h; simp [Nat.mod_eq_of_lt h]
  | cons x xs ih =>
    intro acc h
    rw [List.foldl_cons, ih _ (Nat.mod_lt _ (by norm_num))]
    simp only [List.map_cons, List.sum_cons]
    omega

lemma sum_map_const_range (n c : Nat) : ((List.range n).map (fun _ => c)).sum = n * c := by
  induction n with
  | zero => simp
  | succ k ih =>
    rw [List.range_succ, List.map_append, List.sum_append]
    simp [ih, Nat.succ_mul]

lemma isqrt32_eq (n : Nat) : isqrt32 n = Nat.sqrt n := rfl

lemma accelCheck_fst (len0 : Nat) (reads : Nat → Nat × Nat × Nat × Nat × Nat × Nat) :
    (accelCheck len0 reads).1 =
      (isqrt32 ((List.range 16).foldl (fun acc i => accelStep acc (reads i)) len0) + 1) / 2 :=
  rfl

lemma accelCheckClaimed_fst (len0 : Nat) (reads : Nat → Nat × Nat × Nat × Nat × Nat × Nat) :
    (accelCheckClaimed len0 reads).1 =
      isqrt32 ((List.range 16).foldl
        (fun acc i => (acc + accelSq3Claimed (reads i)) % 4294967296) len0) := by
  simp only [accelCheckClaimed]

lemma accelCheck_pass_iff (len0 : Nat) (reads : Nat → Nat × Nat × Nat × Nat × Nat × Nat) :
    (accelCheck len0 reads).2 = true ↔
      0x3f00 ≤ (accelCheck len0 reads).1 ∧ (accelCheck len0 reads).1 ≤ 0x4070 := by
  simp only [accelCheck, isqrt32]
  constructor
  · intro hp
    have := of_decide_eq_true (by simpa using hp)
    omega
  · intro hp
    simp only [Bool.not_eq_true', Bool.or_eq_false_iff, decide_eq_false_iff_not]
    omega

lemma accelCheckClaimed_pass_iff (len0 : Nat)
    (reads : Nat → Nat × Nat × Nat × Nat × Nat × Nat) :
    (accelCheckClaimed len0 reads).2 = true ↔
      0x3f00 ≤ (accelCheckClaimed len0 reads).1 ∧
        (accelCheckClaimed len0 reads).1 ≤ 0x4070 := by
  simp only [accelCheckClaimed, isqrt32]
  constructor
  · intro hp
    have := of_decide_eq_true (by simpa using hp)
    omega
  · intro hp
    simp only [Bool.not_eq_true', Bool.or_eq_false_iff, decide_eq_false_iff_not]
    omega

/-- Counterexample to C6 as stated: feeding the check the magnitude 400
left over from the magnetic-field check and sixteen reads of 9400 (raw)
on each axis, the code halves each sample to 4700 before squaring and
halves the square root again, getting 16281, inside the pass band
0x3f00..0x4070 — it passes.  Under the claim's reading (sum the squares
of the samples into the same running sum, then take the integer square
root) the result is 65125, far outside the band — it would halt.  The
claim omits both halvings, and they change the outcome. -/
theorem C6_counterexample :
    (accelCheck 400 (fun _ => (36, 184, 36, 184, 36, 184))).1 = 16281 ∧
    (accelCheck 400 (fun _ => (36, 184, 36, 184, 36, 184))).2 = true ∧
    (accelCheckClaimed 400 (fun _ => (36, 184, 36, 184, 36, 184))).1 = 65125 ∧
    (accelCheckClaimed 400 (fun _ => (36, 184, 36, 184, 36, 184))).2 = false := by
  have hs1 : Nat.sqrt 1060320400 = 32562 := sqrt_eval _ _ (by norm_num) (by norm_num)
  have hs2 : Nat.sqrt 4241280400 = 65125 := sqrt_eval _ _ (by norm_num) (by norm_num)
  have hsq : accelSq3 (36, 184, 36, 184, 36, 184) = 66270000 := by decide
  have hsq2 : accelSq3Claimed (36, 184, 36, 184, 36, 184) = 265080000 := by decide
  have hfun : (fun i : Nat => accelSq3 ((fun _ : Nat => ((36, 184, 36, 184, 36, 184) :
      Nat × Nat × Nat × Nat × Nat × Nat)) i)) = fun _ : Nat => (66270000 : Nat) := by
    funext i; exact hsq
  have hfun2 : (fun i : Nat => accelSq3Claimed ((fun _ : Nat => ((36, 184, 36, 184, 36, 184) :
      Nat × Nat × Nat × Nat × Nat × Nat)) i)) = fun _ : Nat => (265080000 : Nat) := by
    funext i; exact hsq2
  have htot : (List.range 16).foldl
      (fun acc i => accelStep acc ((fun _ : Nat => ((36, 184, 36, 184, 36, 184) :
        Nat × Nat × Nat × Nat × Nat × Nat)) i)) 400 = 1060320400 := by
    rw [accelFold_eq _ (List.range 16) 400 (by norm_num), hfun,
      sum_map_const_range]
  have htot2 : (List.range 16).foldl
      (fun acc i => (acc + accelSq3Claimed ((fun _ : Nat => ((36, 184, 36, 184, 36, 184) :
        Nat × Nat × Nat × Nat × Nat × Nat)) i)) % 4294967296) 400 = 4241280400 := by
    rw [claimedFold_eq _ (List.range 16) 400 (by norm_num), hfun2,
      sum_map_const_range]
  have h1 := accelCheck_fst 400 (fun _ => ((36, 184, 36, 184, 36, 184) :
    Nat × Nat × Nat × Nat × Nat × Nat))
  rw [htot, isqrt32_eq, hs1] at h1
  norm_num at h1
  have h2 : (accelCheck 400 (fun _ => ((36, 184, 36, 184, 36, 184) :
      Nat × Nat × Nat × Nat × Nat × Nat))).2 = true :=
    (accelCheck_pass_iff 400 _).mpr (by rw [h1]; norm_num)
  have h3 := accelCheckClaimed_fst 400 (fun _ => ((36, 184, 36, 184, 36, 184) :
    Nat × Nat × Nat × Nat × Nat × Nat))
  rw [htot2, isqrt32_eq, hs2] at h3
  have h4 : (accelCheckClaimed 400 (fun _ => ((36, 184, 36, 184, 36, 184) :
      Nat × Nat × Nat × Nat × Nat × Nat))).2 = false := by
    rw [Bool.eq_false_iff]
    intro hc
    have := (accelCheckClaimed_pass_iff 400 _).mp hc
    rw [h3] at this
    omega
  exact ⟨h1, h2, h3, h4⟩

/-- C6 amended: the accelerometer check samples the accelerometer 16
times, halves each signed 16-bit sample (adding 1 and shifting right by
one) before squaring, accumulates the squares into the same running sum
variable still holding the magnetic-field magnitude (it is not reset to
zero first), takes the integer square root of the total and halves it
again with rounding, and halts unless the result falls within the
inclusive pass band 0x3f00 to 0x4070. -/
theorem C6_accel_amended (len0 : Nat)
    (reads : Nat → Nat × Nat × Nat × Nat × Nat × Nat) (h : len0 < 4294967296) :
    (accelCheck len0 reads).1 =
      (Nat.sqrt ((len0 + ((List.range 16).map (fun i => accelSq3 (reads i))).sum) %
        4294967296) + 1) / 2 ∧
    ((accelCheck len0 reads).2 = true ↔
      0x3f00 ≤ (accelCheck len0 reads).1 ∧ (accelCheck len0 reads).1 ≤ 0x4070) := by
  constructor
  · simp only [accelCheck, isqrt32]
    rw [accelFold_eq reads (List.range 16) len0 h]
  · exact accelCheck_pass_iff len0 reads

/-- Witness for C6 amended at the all-zero input. -/
theorem C6_accel_amended_witness :
    (accelCheck 0 (fun _ => (0, 0, 0, 0, 0, 0))).1 =
      (Nat.sqrt ((0 + ((List.range 16).map
        (fun i => accelSq3 ((fun _ => ((0, 0, 0, 0, 0, 0) :
          Nat × Nat × Nat × Nat × Nat × Nat)) i))).sum) % 4294967296) + 1) / 2 ∧
    ((accelCheck 0 (fun _ => (0, 0, 0, 0, 0, 0))).2 = true ↔
      0x3f00 ≤ (accelCheck 0 (fun _ => (0, 0, 0, 0, 0, 0))).1 ∧
        (accelCheck 0 (fun _ => (0, 0, 0, 0, 0, 0))).1 ≤ 0x4070) :=
  C6_accel_amended 0 (fun _ => (0, 0, 0, 0, 0, 0)) (by norm_num)

/-! ## C1: fail-safe halt of the boot safety gate -/

lemma loopStep_halted (i : TickInput) (m : Machine) (hm : m.phase = .halted) :
    loopStep i m = m := by
  unfold loopStep
  rw [hm]

lemma runSteps_halted (tis : List TickInput) (m : Machine) (hm : m.phase = .halted) :
    runSteps tis m = m := by
  induction tis with
  | nil => rfl
  | cons i rest ih =>
    rw [runSteps, loopStep_halted i m hm]
    exact ih

/-- C1: if any boot sanity check fails, `setup` takes the `die()` path:
interrupts are disabled, the fixed "ERROR" diagnostic is emitted,
`actuators_start()` is never reached (so the motors are never driven),
and the resulting halt state is absorbing — from a halted machine no
number of further loop iterations changes anything; no further mode or
control code ever executes. -/
theorem C1_safety_gate_halt (inp : BootInput) (h : ¬ checksPass inp) :
    setup inp = dieOutcome ∧
    (setup inp).halted = true ∧
    (setup inp).interruptsEnabled = false ∧
    (setup inp).actuatorsStarted = false ∧
    (setup inp).errorEmitted = true ∧
    (∀ (tis : List TickInput) (m : Machine), m.phase = .halted → runSteps tis m = m) := by
  have hdie : setup inp = dieOutcome := by
    simp only [setup]
    split_ifs with h1 h2 h3 h4 h5
    · rfl
    · rfl
    · rfl
    · rfl
    · rfl
    · exact absurd ⟨by omega, by simpa using h2, by simpa using h3,
        by simpa using h4, h5⟩ h
  exact ⟨hdie, by rw [hdie]; rfl, by rw [hdie]; rfl, by rw [hdie]; rfl,
    by rw [hdie]; rfl, runSteps_halted⟩

/-- Witness for C1 at a boot input whose magnetometer identity byte
reads 0 instead of the expected 0x02. -/
theorem C1_safety_gate_halt_witness :
    setup ⟨0, (0, 0, 0), fun _ => (0, 0, 0), (0, 0, 0, 0, 0, 0), (0, 0, 0),
      fun _ => (0, 0, 0, 0, 0, 0), 1, 0⟩ = dieOutcome ∧
    (setup ⟨0, (0, 0, 0), fun _ => (0, 0, 0), (0, 0, 0, 0, 0, 0), (0, 0, 0),
      fun _ => (0, 0, 0, 0, 0, 0), 1, 0⟩).halted = true ∧
    (setup ⟨0, (0, 0, 0), fun _ => (0, 0, 0), (0, 0, 0, 0, 0, 0), (0, 0, 0),
      fun _ => (0, 0, 0, 0, 0, 0), 1, 0⟩).interruptsEnabled = false ∧
    (setup ⟨0, (0, 0, 0), fun _ => (0, 0, 0), (0, 0, 0, 0, 0, 0), (0, 0, 0),
      fun _ => (0, 0, 0, 0, 0, 0), 1, 0⟩).actuatorsStarted = false ∧
    (setup ⟨0, (0, 0, 0), fun _ => (0, 0, 0), (0, 0, 0, 0, 0, 0), (0, 0, 0),
      fun _ => (0, 0, 0, 0, 0, 0), 1, 0⟩).errorEmitted = true ∧
    (∀ (tis : List TickInput) (m : Machine), m.phase = .halted → runSteps tis m = m) :=
  C1_safety_gate_halt
    ⟨0, (0, 0, 0), fun _ => (0, 0, 0), (0, 0, 0, 0, 0, 0), (0, 0, 0),
      fun _ => (0, 0, 0, 0, 0, 0), 1, 0⟩
    (fun hc => absurd hc.1 (by decide))

end Pilot
